import Mathlib

/-!
Verification of the SHL assessment-recommendation backend (`app.py`).

Strings are modelled as lists of characters.  Scores are modelled as
rationals (the Python code computes with exact small fractions, so every
arithmetic identity below holds verbatim for the floating-point program on
these inputs).  A Python `ZeroDivisionError` is modelled by `Option`:
a function that can raise returns `none` exactly when the Python code
raises.
-/

namespace SHL

/-- A Python string, modelled as its list of characters. -/
abbrev Str := List Char

/-- Coerce a Lean string literal to the `Str` model. -/
def str (s : String) : Str := s.data

/-- Python's whitespace test (`str.isspace` / regex `\s` on a single
character): the ASCII whitespace characters together with the Unicode
whitespace code points recognised by CPython. -/
def isPySpace (c : Char) : Bool :=
  (9 ≤ c.toNat && c.toNat ≤ 13) || c.toNat == 32 ||
  (28 ≤ c.toNat && c.toNat ≤ 31) || c.toNat == 133 || c.toNat == 160 ||
  c.toNat == 5760 || (8192 ≤ c.toNat && c.toNat ≤ 8202) ||
  c.toNat == 8232 || c.toNat == 8233 || c.toNat == 8239 ||
  c.toNat == 8287 || c.toNat == 12288

/-- The character class `[a-zA-Z0-9\s]` of the regex in `clean_text`
(`app.py` line 152): ASCII letters, ASCII digits and whitespace.  These are
the characters the substitution keeps. -/
def isKeptChar (c : Char) : Bool :=
  (97 ≤ c.toNat && c.toNat ≤ 122) ||
  (65 ≤ c.toNat && c.toNat ≤ 90) ||
  (48 ≤ c.toNat && c.toNat ≤ 57) ||
  isPySpace c

/-- `clean_text` (`app.py` lines 150-152): lowercase the text, then delete
every character outside `[a-zA-Z0-9\s]`.  `Char.toLower` agrees with
Python's `str.lower` on every character that can survive the filter. -/
def clean_text (text : Str) : Str :=
  (text.map Char.toLower).filter isKeptChar

/-- The recursion behind Python's `str.split()` with no separator: skip
whitespace, read a maximal non-whitespace token, repeat.  Structural
recursion on a fuel argument: every step consumes at least one character,
so `length` fuel always suffices (see `pySplit`). -/
def pySplitF : Nat → Str → List Str
  | 0, _ => []
  | _, [] => []
  | fuel + 1, c :: cs =>
    if isPySpace c then pySplitF fuel cs
    else (c :: cs.takeWhile (fun d => !isPySpace d)) ::
      pySplitF fuel (cs.dropWhile (fun d => !isPySpace d))

/-- Python's `str.split()` with no separator (`app.py` line 193): split on
runs of whitespace, dropping empty tokens. -/
def pySplit (l : Str) : List Str := pySplitF l.length l

/-- Python's substring test `needle in hay` for strings: `needle` is a
prefix of some suffix of `hay`. -/
def substr (needle hay : Str) : Bool :=
  hay.tails.any (fun t => needle.isPrefixOf t)

/-- One catalog entry / result record of `app.py`.  Python represents these
as dictionaries; `relevance_score` models the optional
`'relevance_score'` key (absent, i.e. `none`, on every catalog entry; set
on the copies returned by `find_relevant_tests`). -/
structure TestRec where
  name : Str
  url : Str
  remote_testing : Bool
  adaptive_irt : Bool
  description : Str
  keywords : List Str
  relevance_score : Option ℚ
deriving DecidableEq

/-- `BASE_CATALOG_URL` (`app.py` line 48). -/
def BASE_CATALOG_URL : Str :=
  str "https://www.shl.com/solutions/products/product-catalog/"

/-- Catalog entry 1 of `SHL_TESTS` (`app.py` lines 52-59). -/
def OPQ32 : TestRec :=
  { name := str "OPQ32"
    url := BASE_CATALOG_URL
    remote_testing := true
    adaptive_irt := true
    description := str "Personality questionnaire measuring 32 characteristics for workplace behavior and preferences"
    keywords := [str "personality", str "leadership", str "behavior", str "traits", str "character", str "management", str "workplace behavior"]
    relevance_score := none }

/-- Catalog entry 2 of `SHL_TESTS` (`app.py` lines 60-67). -/
def verifyGPlus : TestRec :=
  { name := str "Verify G+"
    url := BASE_CATALOG_URL
    remote_testing := true
    adaptive_irt := true
    description := str "Cognitive ability assessment measuring numerical, verbal, and logical reasoning abilities"
    keywords := [str "cognitive", str "numerical", str "verbal", str "logical", str "reasoning", str "aptitude", str "problem solving"]
    relevance_score := none }

/-- Catalog entry 3 of `SHL_TESTS` (`app.py` lines 68-75). -/
def verifyNumerical : TestRec :=
  { name := str "Verify Numerical"
    url := BASE_CATALOG_URL
    remote_testing := true
    adaptive_irt := true
    description := str "Assessment focusing on numerical reasoning and data interpretation skills"
    keywords := [str "numerical", str "mathematics", str "data", str "analysis", str "quantitative", str "calculations"]
    relevance_score := none }

/-- Catalog entry 4 of `SHL_TESTS` (`app.py` lines 76-83). -/
def verifyVerbal : TestRec :=
  { name := str "Verify Verbal"
    url := BASE_CATALOG_URL
    remote_testing := true
    adaptive_irt := true
    description := str "Assessment of verbal reasoning and comprehension abilities"
    keywords := [str "verbal", str "language", str "comprehension", str "communication", str "reading"]
    relevance_score := none }

/-- Catalog entry 5 of `SHL_TESTS` (`app.py` lines 84-91). -/
def verifyMechanical : TestRec :=
  { name := str "Verify Mechanical"
    url := BASE_CATALOG_URL
    remote_testing := true
    adaptive_irt := true
    description := str "Tests understanding of mechanical concepts and physical principles"
    keywords := [str "mechanical", str "engineering", str "technical", str "physics", str "machinery"]
    relevance_score := none }

/-- Catalog entry 6 of `SHL_TESTS` (`app.py` lines 92-99). -/
def codingPro : TestRec :=
  { name := str "Coding Pro"
    url := BASE_CATALOG_URL
    remote_testing := true
    adaptive_irt := true
    description := str "Technical assessment for software developers testing coding skills and problem-solving"
    keywords := [str "programming", str "coding", str "software", str "development", str "technical", str "IT"]
    relevance_score := none }

/-- Catalog entry 7 of `SHL_TESTS` (`app.py` lines 100-107). -/
def salesAssessment : TestRec :=
  { name := str "Sales Assessment"
    url := BASE_CATALOG_URL
    remote_testing := true
    adaptive_irt := true
    description := str "Comprehensive assessment for sales roles measuring sales aptitude and skills"
    keywords := [str "sales", str "customer service", str "business development", str "negotiation"]
    relevance_score := none }

/-- Catalog entry 8 of `SHL_TESTS` (`app.py` lines 108-115). -/
def callCenterAssessment : TestRec :=
  { name := str "Call Center Assessment"
    url := BASE_CATALOG_URL
    remote_testing := true
    adaptive_irt := true
    description := str "Assessment for contact center roles measuring customer service skills"
    keywords := [str "customer service", str "call center", str "communication", str "support"]
    relevance_score := none }

/-- Catalog entry 9 of `SHL_TESTS` (`app.py` lines 116-123). -/
def workplacePersonalityInventory : TestRec :=
  { name := str "Workplace Personality Inventory"
    url := BASE_CATALOG_URL
    remote_testing := true
    adaptive_irt := true
    description := str "Measures work-related personality traits and behavioral preferences"
    keywords := [str "personality", str "workplace", str "behavior", str "traits", str "professional"]
    relevance_score := none }

/-- Catalog entry 10 of `SHL_TESTS` (`app.py` lines 124-131). -/
def remoteWorkAssessment : TestRec :=
  { name := str "Remote Work Assessment"
    url := BASE_CATALOG_URL
    remote_testing := true
    adaptive_irt := true
    description := str "Evaluates capabilities and preferences for remote work environments"
    keywords := [str "remote work", str "virtual", str "work from home", str "distributed teams"]
    relevance_score := none }

/-- Catalog entry 11 of `SHL_TESTS` (`app.py` lines 132-139). -/
def leadershipAssessment : TestRec :=
  { name := str "Leadership Assessment"
    url := BASE_CATALOG_URL
    remote_testing := true
    adaptive_irt := true
    description := str "Comprehensive assessment of leadership potential and capabilities"
    keywords := [str "leadership", str "management", str "executive", str "strategic thinking"]
    relevance_score := none }

/-- Catalog entry 12 of `SHL_TESTS` (`app.py` lines 140-147). -/
def graduateAssessment : TestRec :=
  { name := str "Graduate Assessment"
    url := BASE_CATALOG_URL
    remote_testing := true
    adaptive_irt := true
    description := str "Assessment suite designed for graduate recruitment and development"
    keywords := [str "graduate", str "entry level", str "campus recruitment", str "early career"]
    relevance_score := none }

/-- The bundled catalog `SHL_TESTS` (`app.py` lines 51-148). -/
def SHL_TESTS : List TestRec :=
  [OPQ32, verifyGPlus, verifyNumerical, verifyVerbal, verifyMechanical,
   codingPro, salesAssessment, callCenterAssessment,
   workplacePersonalityInventory, remoteWorkAssessment,
   leadershipAssessment, graduateAssessment]

/-- The haystack `test_text` (`app.py` line 168):
`clean_text(test['description'] + ' ' + ' '.join(test['keywords']) + ' ' + test['name'])`. -/
def test_text (test : TestRec) : Str :=
  clean_text (test.description ++ str " " ++
    List.intercalate (str " ") test.keywords ++ str " " ++ test.name)

/-- The exact-keyword component (`app.py` lines 170-172):
`sum(clean_text(keyword) in query_terms for keyword in test['keywords'])`
divided by the keyword count, times `0.5`. -/
def keyword_component (query_terms : List Str) (test : TestRec) : ℚ :=
  ((test.keywords.map
      (fun kw => if query_terms.contains (clean_text kw) then (1 : ℚ) else 0)).sum
    / test.keywords.length) * (1 / 2)

/-- The accumulator loop of lines 175-182 of `app.py`: for each query term
longer than 3 characters, add `1` if it is a substring of the haystack and
a further `0.5` if some (raw) keyword starts with it. -/
def term_matches (query_terms : List Str) (test : TestRec) : ℚ :=
  query_terms.foldl
    (fun acc term =>
      if term.length > 3 then
        (acc + (if substr term (test_text test) then 1 else 0)) +
          (if test.keywords.any (fun kw => term.isPrefixOf kw) then 1 / 2 else 0)
      else acc) 0

/-- The partial/stem component (`app.py` line 183):
`(term_matches / len(query_terms)) * 0.3`. -/
def partial_component (query_terms : List Str) (test : TestRec) : ℚ :=
  (term_matches query_terms test / query_terms.length) * (3 / 10)

/-- The name-match bonus (`app.py` lines 185-187): a flat `0.2` when any
query term is a substring of the cleaned item name. -/
def name_bonus (query_terms : List Str) (test : TestRec) : ℚ :=
  if query_terms.any (fun term => substr term (clean_text test.name)) then 1 / 5 else 0

/-- `calculate_relevance_score` (`app.py` lines 165-189).  Returns `none`
exactly when the Python function raises `ZeroDivisionError`: line 172
divides by `len(test['keywords'])` and line 183 divides by
`len(query_terms)`, in that order. -/
def calculate_relevance_score (query_terms : List Str) (test : TestRec) : Option ℚ :=
  if test.keywords.length = 0 then none
  else if query_terms.length = 0 then none
  else some (keyword_component query_terms test +
    partial_component query_terms test + name_bonus query_terms test)

/-- The scoring loop of `find_relevant_tests` (`app.py` lines 196-202),
with the state of the catalog made explicit.  For each entry the score is
computed (an exception aborts the whole call, hence the `Option`); entries
with positive score are copied (`test.copy()`), the copy — not the catalog
entry — receives the `relevance_score` key, and the copy is appended to
`relevant_tests`.  Returns the catalog as it is after the loop together
with `relevant_tests`. -/
def score_catalog (query_terms : List Str) :
    List TestRec → Option (List TestRec × List TestRec)
  | [] => some ([], [])
  | test :: rest => do
    let score ← calculate_relevance_score query_terms test
    let (cat, rel) ← score_catalog query_terms rest
    let rel' := if 0 < score
      then ({ test with relevance_score := some score } : TestRec) :: rel
      else rel
    some (test :: cat, rel')

/-- The sort key of `app.py` line 205, `lambda x: x['relevance_score']`.
Every element of `relevant_tests` carries the key, so the default value of
`getD` is never consulted. -/
def sort_key (t : TestRec) : ℚ := t.relevance_score.getD 0

/-- The comparison realising `sort(key=..., reverse=True)`: a stable sort
that puts larger keys first. -/
def score_ge (a b : TestRec) : Bool := decide (sort_key b ≤ sort_key a)

/-- The result dictionary of `find_relevant_tests` (`app.py` lines 208-211). -/
structure RankResult where
  recommendations : List TestRec
  message : Str
deriving DecidableEq

/-- `find_relevant_tests` (`app.py` lines 191-211), with the catalog state
made explicit.  Returns `none` exactly when the Python function raises
(`ZeroDivisionError` out of the scorer); otherwise returns the catalog
after the call together with the result dictionary. -/
def find_relevant_tests (query : Str) (catalog : List TestRec) (max_results : Nat) :
    Option (List TestRec × RankResult) := do
  let query_terms := pySplit (clean_text query)
  let (cat, relevant_tests) ← score_catalog query_terms catalog
  let sorted := relevant_tests.mergeSort score_ge
  let recommended := sorted.take max_results
  some (cat,
    { recommendations := recommended
      message := str "Found " ++ (Nat.repr recommended.length).data ++
        str " relevant tests." })

/-- The default of the `max_results` parameter (`app.py` line 191). -/
def DEFAULT_MAX_RESULTS : Nat := 10

/-- `find_relevant_tests` as called with the parameter defaulted
(`app.py` line 245). -/
def find_relevant_tests_default (query : Str) (catalog : List TestRec) :
    Option (List TestRec × RankResult) :=
  find_relevant_tests query catalog DEFAULT_MAX_RESULTS

/-- The points one query term contributes inside the loop of lines 175-182
of `app.py`: for a term longer than 3 characters, `1` if it is a substring
of the haystack plus `1/2` if some keyword — as written in the catalog,
not normalized — starts with it; `0` for a short term. -/
def term_points (test : TestRec) (term : Str) : ℚ :=
  if term.length > 3 then
    (if substr term (test_text test) then 1 else 0) +
      (if test.keywords.any (fun kw => term.isPrefixOf kw) then 1 / 2 else 0)
  else 0

/-- The per-term points as the claim words them: the `1/2` prefix bonus is
tested against the item's NORMALIZED keywords.  This definition follows
the claim's words, to be compared with `term_points`, which follows the
code. -/
def term_points_claimed (test : TestRec) (term : Str) : ℚ :=
  if term.length > 3 then
    (if substr term (test_text test) then 1 else 0) +
      (if test.keywords.any (fun kw => term.isPrefixOf (clean_text kw)) then 1 / 2 else 0)
  else 0

/-- The partial/stem component as the claim words it (prefix test against
normalized keywords), to be compared with `partial_component`. -/
def partial_component_claimed (query_terms : List Str) (test : TestRec) : ℚ :=
  ((query_terms.map (term_points_claimed test)).sum / query_terms.length) * (3 / 10)

/-- An item of the shape the catalog schema admits whose keyword is not
already lowercase: it separates the code's raw-keyword prefix test from
the claim's normalized-keyword prefix test. -/
def rawKeywordItem : TestRec :=
  { name := []
    url := []
    remote_testing := true
    adaptive_irt := true
    description := []
    keywords := [str "SALES"]
    relevance_score := none }

/-- The one-item catalog entry of the spec's Scenario E: keywords
`["sales", "negotiation"]`. -/
def scenarioEItem : TestRec :=
  { name := []
    url := []
    remote_testing := true
    adaptive_irt := true
    description := []
    keywords := [str "sales", str "negotiation"]
    relevance_score := none }

/-- What the loop of lines 196-202 of `app.py` contributes for one catalog
entry: `none` when the score is not positive (nothing is appended),
otherwise the fresh copy of the entry with its `relevance_score` key set.
(The outer `Option` of `calculate_relevance_score` is the exception;
`score_catalog` is proved to produce exactly
`catalog.filterMap (scored_copy query_terms)` when no exception occurs.) -/
def scored_copy (query_terms : List Str) (t : TestRec) : Option TestRec :=
  (calculate_relevance_score query_terms t).bind
    (fun s => if 0 < s then some { t with relevance_score := some s } else none)

/-- The list `relevant_tests` built by the loop of lines 196-202 of
`app.py`, in catalog order. -/
def positive_scored (query_terms : List Str) (catalog : List TestRec) : List TestRec :=
  catalog.filterMap (scored_copy query_terms)

/-- The copy of the Sales Assessment entry that the query `"sales"`
produces: its relevance score is `31/40 = 0.775`. -/
def salesScored : TestRec :=
  { salesAssessment with relevance_score := some (31 / 40) }

/-- The result dictionary `find_relevant_tests` returns for the query
`"sales"` on the bundled catalog. -/
def salesRankResult : RankResult :=
  { recommendations := [salesScored]
    message := str "Found 1 relevant tests." }

/-- `substr` decides Python's substring relation: it holds exactly on
contiguous infixes. -/
theorem substr_iff {needle hay : Str} : substr needle hay = true ↔ needle <:+: hay := by
  simp only [substr, List.any_eq_true, List.mem_tails, List.isPrefixOf_iff_prefix,
    List.infix_iff_prefix_suffix]
  exact ⟨fun ⟨t, h1, h2⟩ => ⟨t, h2, h1⟩, fun ⟨t, h1, h2⟩ => ⟨t, h2, h1⟩⟩

/-- Every token produced by `pySplitF` is a contiguous substring of the
split string. -/
theorem pySplitF_infix : ∀ (fuel : Nat) (l : Str), ∀ t ∈ pySplitF fuel l, t <:+: l := by
  intro fuel
  induction fuel with
  | zero => intro l t ht; simp [pySplitF] at ht
  | succ n ih =>
    intro l t ht
    cases l with
    | nil => simp [pySplitF] at ht
    | cons c cs =>
      rw [pySplitF] at ht
      by_cases hc : isPySpace c
      · rw [if_pos hc] at ht
        exact List.infix_cons (ih cs t ht)
      · rw [if_neg hc] at ht
        rcases List.mem_cons.mp ht with h | h
        · subst h
          have he : c :: cs.takeWhile (fun d => !isPySpace d) =
              (c :: cs).takeWhile (fun d => !isPySpace d) := by
            rw [List.takeWhile_cons]
            simp [hc]
          rw [he]
          exact (List.takeWhile_prefix _).isInfix
        · exact List.infix_cons ((ih _ t h).trans (List.dropWhile_suffix _).isInfix)

/-- Every token produced by `pySplit` is a contiguous substring of the
split string. -/
theorem pySplit_infix (l : Str) : ∀ t ∈ pySplit l, t <:+: l :=
  pySplitF_infix l.length l

/-- The split is fuel-independent once the fuel covers the length: every
recursive step strips at least one character, so `length l` fuel is always
enough and `pySplit` computes Python's `str.split()` exactly. -/
theorem pySplitF_eq_of_le :
    ∀ (f1 : Nat), ∀ (l : Str), ∀ (f2 : Nat), l.length ≤ f1 → l.length ≤ f2 →
      pySplitF f1 l = pySplitF f2 l := by
  intro f1
  induction f1 with
  | zero =>
    intro l f2 h1 _
    rw [Nat.le_zero, List.length_eq_zero] at h1
    subst h1
    cases f2 <;> rfl
  | succ n ih =>
    intro l f2 h1 h2
    cases l with
    | nil => cases f2 <;> rfl
    | cons c cs =>
      cases f2 with
      | zero => exact absurd h2 (by simp)
      | succ m =>
        rw [pySplitF, pySplitF]
        have hcs1 : cs.length ≤ n := Nat.succ_le_succ_iff.mp h1
        have hcs2 : cs.length ≤ m := Nat.succ_le_succ_iff.mp h2
        by_cases hc : isPySpace c
        · rw [if_pos hc, if_pos hc]
          exact ih cs m hcs1 hcs2
        · rw [if_neg hc, if_neg hc]
          have hd := List.Sublist.length_le
            (List.dropWhile_sublist (fun d => !isPySpace d) (l := cs))
          rw [ih (cs.dropWhile (fun d => !isPySpace d)) m (le_trans hd hcs1)
            (le_trans hd hcs2)]

/-- `Char.toLower` is the identity off the ASCII uppercase range. -/
theorem toLower_eq_of_not_upper {c : Char} (h : ¬(65 ≤ c.toNat ∧ c.toNat ≤ 90)) :
    Char.toLower c = c := by
  show (if c.toNat ≥ 65 ∧ c.toNat ≤ 90 then Char.ofNat (c.toNat + 32) else c) = c
  rw [if_neg (fun hx => h ⟨hx.1, hx.2⟩)]

/-- On the ASCII uppercase range `Char.toLower` shifts the code point by 32. -/
theorem toLower_toNat_of_upper {c : Char} (h1 : 65 ≤ c.toNat) (h2 : c.toNat ≤ 90) :
    (Char.toLower c).toNat = c.toNat + 32 := by
  have hv : (c.toNat + 32).isValidChar := Or.inl (by omega)
  have he : Char.toLower c = Char.ofNat (c.toNat + 32) := by
    show (if c.toNat ≥ 65 ∧ c.toNat ≤ 90 then Char.ofNat (c.toNat + 32) else c) = _
    rw [if_pos ⟨h1, h2⟩]
  rw [he, Char.ofNat, dif_pos hv]
  rfl

/-- The output of `Char.toLower` is never an ASCII uppercase letter. -/
theorem toLower_not_upper (c : Char) :
    ¬(65 ≤ (Char.toLower c).toNat ∧ (Char.toLower c).toNat ≤ 90) := by
  by_cases h : 65 ≤ c.toNat ∧ c.toNat ≤ 90
  · rw [toLower_toNat_of_upper h.1 h.2]
    omega
  · rw [toLower_eq_of_not_upper h]
    exact h

/-- `Char.toLower` is idempotent. -/
theorem toLower_toLower (c : Char) : Char.toLower (Char.toLower c) = Char.toLower c :=
  toLower_eq_of_not_upper (toLower_not_upper c)

/-- The loop of lines 175-182 of `app.py` computes the sum of the
per-term points. -/
theorem term_matches_eq_sum (query_terms : List Str) (test : TestRec) :
    term_matches query_terms test = (query_terms.map (term_points test)).sum := by
  have step : ∀ (l : List Str) (a : ℚ),
      l.foldl (fun acc term =>
        if term.length > 3 then
          (acc + (if substr term (test_text test) then 1 else 0)) +
            (if test.keywords.any (fun kw => term.isPrefixOf kw) then 1 / 2 else 0)
        else acc) a = a + (l.map (term_points test)).sum := by
    intro l
    induction l with
    | nil => intro a; simp
    | cons t ts ih =>
      intro a
      simp only [List.foldl_cons, List.map_cons, List.sum_cons, ih]
      unfold term_points
      split
      · ring
      · ring
  unfold term_matches
  rw [step query_terms 0]
  exact zero_add _

/-- Per-term points are nonnegative. -/
theorem term_points_nonneg (test : TestRec) (term : Str) : 0 ≤ term_points test term := by
  unfold term_points
  split
  · split <;> split <;> norm_num
  · exact le_refl 0

/-- Per-term points never exceed `3/2`. -/
theorem term_points_le (test : TestRec) (term : Str) : term_points test term ≤ 3 / 2 := by
  unfold term_points
  split
  · split <;> split <;> norm_num
  · norm_num

/-- The loop total is nonnegative. -/
theorem term_matches_nonneg (query_terms : List Str) (test : TestRec) :
    0 ≤ term_matches query_terms test := by
  rw [term_matches_eq_sum]
  apply List.sum_nonneg
  intro x hx
  obtain ⟨t, _, rfl⟩ := List.mem_map.mp hx
  exact term_points_nonneg _ _

/-- The loop total is at most `3/2` per query term. -/
theorem term_matches_le (query_terms : List Str) (test : TestRec) :
    term_matches query_terms test ≤ (3 / 2) * query_terms.length := by
  rw [term_matches_eq_sum]
  have h := List.sum_le_card_nsmul (query_terms.map (term_points test)) (3 / 2) ?_
  · rw [List.length_map, nsmul_eq_mul] at h
    calc (query_terms.map (term_points test)).sum
        ≤ (query_terms.length : ℚ) * (3 / 2) := h
      _ = (3 / 2) * query_terms.length := mul_comm _ _
  · intro x hx
    obtain ⟨t, _, rfl⟩ := List.mem_map.mp hx
    exact term_points_le _ _

/-- The keyword-exact component is nonnegative. -/
theorem keyword_component_nonneg (query_terms : List Str) (test : TestRec) :
    0 ≤ keyword_component query_terms test := by
  unfold keyword_component
  apply mul_nonneg _ (by norm_num)
  apply div_nonneg _ (Nat.cast_nonneg _)
  apply List.sum_nonneg
  intro x hx
  obtain ⟨kw, _, rfl⟩ := List.mem_map.mp hx
  split <;> norm_num

/-- The keyword-exact component is at most `1/2`. -/
theorem keyword_component_le (query_terms : List Str) (test : TestRec) :
    keyword_component query_terms test ≤ 1 / 2 := by
  unfold keyword_component
  have hsum : (test.keywords.map
      (fun kw => if query_terms.contains (clean_text kw) then (1 : ℚ) else 0)).sum
      ≤ (test.keywords.length : ℚ) := by
    have h := List.sum_le_card_nsmul (test.keywords.map
      (fun kw => if query_terms.contains (clean_text kw) then (1 : ℚ) else 0)) 1 ?_
    · rw [List.length_map, nsmul_eq_mul, mul_one] at h
      exact h
    · intro x hx
      obtain ⟨kw, _, rfl⟩ := List.mem_map.mp hx
      split <;> norm_num
  have hdiv := div_le_one_of_le₀ hsum (Nat.cast_nonneg _)
  calc (test.keywords.map
      (fun kw => if query_terms.contains (clean_text kw) then (1 : ℚ) else 0)).sum
        / (test.keywords.length : ℚ) * (1 / 2)
      ≤ 1 * (1 / 2) := by
        apply mul_le_mul_of_nonneg_right hdiv
        norm_num
    _ = 1 / 2 := one_mul _

/-- The partial/stem component is nonnegative. -/
theorem partial_component_nonneg (query_terms : List Str) (test : TestRec) :
    0 ≤ partial_component query_terms test := by
  unfold partial_component
  apply mul_nonneg _ (by norm_num)
  exact div_nonneg (term_matches_nonneg _ _) (Nat.cast_nonneg _)

/-- The partial/stem component is at most `9/20`. -/
theorem partial_component_le (query_terms : List Str) (test : TestRec) :
    partial_component query_terms test ≤ 9 / 20 := by
  unfold partial_component
  have hdiv : term_matches query_terms test / (query_terms.length : ℚ) ≤ 3 / 2 := by
    rcases Nat.eq_zero_or_pos query_terms.length with h0 | hpos
    · rw [List.length_eq_zero] at h0
      subst h0
      have : term_matches ([] : List Str) test = 0 := by
        rw [term_matches_eq_sum]
        simp
      rw [this]
      norm_num
    · rw [div_le_iff₀ (by exact_mod_cast hpos)]
      calc term_matches query_terms test
          ≤ (3 / 2) * query_terms.length := term_matches_le _ _
        _ = 3 / 2 * query_terms.length := rfl
  calc term_matches query_terms test / (query_terms.length : ℚ) * (3 / 10)
      ≤ (3 / 2) * (3 / 10) := by
        apply mul_le_mul_of_nonneg_right hdiv
        norm_num
    _ = 9 / 20 := by norm_num

/-- The name bonus is nonnegative. -/
theorem name_bonus_nonneg (query_terms : List Str) (test : TestRec) :
    0 ≤ name_bonus query_terms test := by
  unfold name_bonus
  split <;> norm_num

/-- The name bonus is at most `1/5`. -/
theorem name_bonus_le (query_terms : List Str) (test : TestRec) :
    name_bonus query_terms test ≤ 1 / 5 := by
  unfold name_bonus
  split <;> norm_num

/-- On non-empty keywords and a non-empty term list the scorer returns the
sum of its three components. -/
theorem calculate_eq (query_terms : List Str) (test : TestRec)
    (hk : test.keywords ≠ []) (hq : query_terms ≠ []) :
    calculate_relevance_score query_terms test =
      some (keyword_component query_terms test + partial_component query_terms test +
        name_bonus query_terms test) := by
  unfold calculate_relevance_score
  rw [if_neg (by simpa using hk), if_neg (by simpa using hq)]

/-- A returned score decomposes into the three components, and forces both
lists non-empty. -/
theorem calculate_some {query_terms : List Str} {test : TestRec} {s : ℚ}
    (h : calculate_relevance_score query_terms test = some s) :
    s = keyword_component query_terms test + partial_component query_terms test +
      name_bonus query_terms test ∧ test.keywords ≠ [] ∧ query_terms ≠ [] := by
  unfold calculate_relevance_score at h
  by_cases hk : test.keywords.length = 0
  · rw [if_pos hk] at h
    exact absurd h (by simp)
  · rw [if_neg hk] at h
    by_cases hq : query_terms.length = 0
    · rw [if_pos hq] at h
      exact absurd h (by simp)
    · rw [if_neg hq] at h
      refine ⟨(Option.some_inj.mp h).symm, ?_, ?_⟩
      · simpa using hk
      · simpa using hq

/-- When the scoring loop completes without an exception, it returns the
catalog unchanged together with exactly the catalog-ordered list of
positive-scored copies. -/
theorem score_catalog_eq (query_terms : List Str) :
    ∀ (catalog : List TestRec) (p : List TestRec × List TestRec),
      score_catalog query_terms catalog = some p →
      p = (catalog, positive_scored query_terms catalog) := by
  intro catalog
  induction catalog with
  | nil =>
    intro p h
    simp only [score_catalog, Option.some_inj] at h
    simp [positive_scored, ← h]
  | cons t rest ih =>
    intro p h
    rw [score_catalog] at h
    cases hcalc : calculate_relevance_score query_terms t with
    | none =>
      rw [hcalc] at h
      simp at h
    | some s =>
      rw [hcalc] at h
      cases hrec : score_catalog query_terms rest with
      | none =>
        rw [hrec] at h
        simp at h
      | some q =>
        rw [hrec] at h
        have hq := ih q hrec
        subst hq
        simp only [Option.bind_eq_bind, Option.some_bind, Option.some_inj] at h
        subst h
        simp only [positive_scored, List.filterMap_cons, scored_copy, hcalc,
          Option.some_bind, Prod.mk.injEq, true_and]
        by_cases hs : 0 < s
        · rw [if_pos hs, if_pos hs]
        · rw [if_neg hs, if_neg hs]

/-- When `find_relevant_tests` completes without an exception, the catalog
comes back unchanged and the recommendations are the first `max_results`
entries of the stable descending sort of the positive-scored copies. -/
theorem find_eq {query : Str} {catalog : List TestRec} {max_results : Nat}
    {cat : List TestRec} {res : RankResult}
    (h : find_relevant_tests query catalog max_results = some (cat, res)) :
    cat = catalog ∧
    res.recommendations =
      ((positive_scored (pySplit (clean_text query)) catalog).mergeSort score_ge).take
        max_results := by
  rw [find_relevant_tests] at h
  cases hsc : score_catalog (pySplit (clean_text query)) catalog with
  | none =>
    rw [hsc] at h
    simp at h
  | some p =>
    rw [hsc] at h
    have hp := score_catalog_eq _ _ _ hsc
    subst hp
    simp only [Option.bind_eq_bind, Option.some_bind, Option.some_inj, Prod.mk.injEq] at h
    obtain ⟨h1, h2⟩ := h
    subst h1
    constructor
    · rfl
    · rw [← h2]

/-- The sort comparison is transitive. -/
theorem score_ge_trans (a b c : TestRec) :
    score_ge a b → score_ge b c → score_ge a c := by
  simp only [score_ge, decide_eq_true_eq]
  exact fun h1 h2 => le_trans h2 h1

/-- The sort comparison is total. -/
theorem score_ge_total (a b : TestRec) : score_ge a b || score_ge b a := by
  simp only [score_ge, Bool.or_eq_true, decide_eq_true_eq]
  exact le_total _ _

/-- Membership in the positive-scored list, unfolded. -/
theorem mem_positive_scored {query_terms : List Str} {catalog : List TestRec}
    {r : TestRec} :
    r ∈ positive_scored query_terms catalog ↔
      ∃ t ∈ catalog, ∃ s : ℚ, calculate_relevance_score query_terms t = some s ∧
        0 < s ∧ r = { t with relevance_score := some s } := by
  simp only [positive_scored, List.mem_filterMap, scored_copy]
  constructor
  · rintro ⟨t, ht, hc⟩
    cases hcalc : calculate_relevance_score query_terms t with
    | none => rw [hcalc] at hc; simp at hc
    | some s =>
      rw [hcalc] at hc
      simp only [Option.some_bind] at hc
      by_cases hs : 0 < s
      · rw [if_pos hs] at hc
        exact ⟨t, ht, s, hcalc, hs, (Option.some_inj.mp hc).symm⟩
      · rw [if_neg hs] at hc
        simp at hc
  · rintro ⟨t, ht, s, hcalc, hs, rfl⟩
    refine ⟨t, ht, ?_⟩
    rw [hcalc]
    simp only [Option.some_bind]
    rw [if_pos hs]

set_option maxRecDepth 4000 in
/-- The scoring loop on the bundled catalog with the tokens of the query
`"sales"`: it completes, leaves the catalog unchanged, and only the Sales
Assessment entry scores positively (at `31/40`). -/
theorem score_catalog_sales :
    score_catalog (pySplit (clean_text (str "sales"))) SHL_TESTS
      = some (SHL_TESTS, [salesScored]) := by
  with_unfolding_all decide

/-- `find_relevant_tests` on the query `"sales"` and the bundled catalog:
one recommendation, the scored copy of the Sales Assessment entry. -/
theorem find_sales_eval :
    find_relevant_tests (str "sales") SHL_TESTS 10 = some (SHL_TESTS, salesRankResult) := by
  rw [find_relevant_tests, score_catalog_sales]
  simp only [Option.bind_eq_bind, Option.some_bind, List.mergeSort_singleton]
  rfl

/-- C1: the claim states that a query with no tokens returns
`{recommendations: [], message: "Found 0 relevant tests."}` without
raising.  The code has no such short-circuit: on the bundled (non-empty)
catalog the empty query reaches `calculate_relevance_score`, whose
division by `len(query_terms)` at line 183 of `app.py` raises
`ZeroDivisionError` (modelled by `none`), with either the explicit limit
`10` or the defaulted one. -/
theorem C1_empty_query_raises :
    find_relevant_tests (str "") SHL_TESTS 10 = none ∧
    find_relevant_tests_default (str "") SHL_TESTS = none :=
  ⟨by decide, by decide⟩

/-- C2 counterexample: for the catalog-shaped item whose keyword is
`"SALES"` and the single query term `"sales"`, the code's partial
component is `3/10` while the claim's normalized-keyword formula gives
`9/20`: line 181 of `app.py` tests `keyword.startswith(term)` on the raw
keyword, so the claim as stated is false. -/
theorem C2_counterexample :
    partial_component [str "sales"] rawKeywordItem = 3 / 10 ∧
    partial_component_claimed [str "sales"] rawKeywordItem = 9 / 20 ∧
    partial_component [str "sales"] rawKeywordItem ≠
      partial_component_claimed [str "sales"] rawKeywordItem :=
  ⟨by with_unfolding_all decide, by with_unfolding_all decide,
    by with_unfolding_all decide⟩

/-- C2 (amended): for every item and non-empty query-term list, the
partial/stem component equals the sum over query terms of: for a term
longer than 3 characters, `1` if it occurs as a substring of the
normalized haystack plus `1/2` if some keyword AS WRITTEN IN THE CATALOG
(raw, not normalized) has the term as a prefix — divided by the total
number of query terms (short terms included) and multiplied by `0.3`. -/
theorem C2_partial_component_raw (query_terms : List Str) (test : TestRec)
    (_hq : query_terms ≠ []) :
    partial_component query_terms test =
      ((query_terms.map (term_points test)).sum / query_terms.length) * (3 / 10) := by
  unfold partial_component
  rw [term_matches_eq_sum]

/-- C2 witness: the amended component formula evaluated at the
counterexample item. -/
theorem C2_witness :
    ([str "sales"] : List Str) ≠ [] ∧
    partial_component [str "sales"] rawKeywordItem =
      (([str "sales"].map (term_points rawKeywordItem)).sum /
        (([str "sales"] : List Str).length : ℚ)) * (3 / 10) :=
  ⟨by decide, C2_partial_component_raw [str "sales"] rawKeywordItem (by decide)⟩

/-- C3: every score the scorer actually returns lies between `0` and
`1.2` (indeed between `0` and `23/20`; `6/5` is the claim's bound). -/
theorem C3_score_bounds (query_terms : List Str) (test : TestRec) (s : ℚ)
    (h : calculate_relevance_score query_terms test = some s) :
    0 ≤ s ∧ s ≤ 6 / 5 := by
  obtain ⟨hs, -, -⟩ := calculate_some h
  subst hs
  constructor
  · have h1 := keyword_component_nonneg query_terms test
    have h2 := partial_component_nonneg query_terms test
    have h3 := name_bonus_nonneg query_terms test
    linarith
  · have h1 := keyword_component_le query_terms test
    have h2 := partial_component_le query_terms test
    have h3 := name_bonus_le query_terms test
    linarith

/-- C3 witness: the query `"sales"` scores the Sales Assessment entry at
`31/40 = 0.775`, inside the bounds. -/
theorem C3_witness :
    calculate_relevance_score [str "sales"] salesAssessment = some (31 / 40) ∧
    (0 ≤ (31 / 40 : ℚ) ∧ (31 / 40 : ℚ) ≤ 6 / 5) :=
  ⟨by with_unfolding_all decide,
    C3_score_bounds [str "sales"] salesAssessment (31 / 40) (by with_unfolding_all decide)⟩

/-- C4: the keyword-exact component counts the keywords whose normalized
form is exactly a member of the query-term list, divides by the item's
keyword count and multiplies by `0.5`. -/
theorem C4_keyword_exact (query_terms : List Str) (test : TestRec)
    (_hk : test.keywords ≠ []) (_hq : query_terms ≠ []) :
    keyword_component query_terms test =
      ((test.keywords.countP (fun kw => decide (clean_text kw ∈ query_terms)) : ℚ)
        / test.keywords.length) * (1 / 2) := by
  unfold keyword_component
  have hsum : ∀ l : List Str,
      (l.map (fun kw => if query_terms.contains (clean_text kw) then (1 : ℚ) else 0)).sum
        = (l.countP (fun kw => decide (clean_text kw ∈ query_terms)) : ℚ) := by
    intro l
    induction l with
    | nil => simp
    | cons kw rest ih =>
      simp only [List.map_cons, List.sum_cons, ih, List.countP_cons]
      by_cases hmem : clean_text kw ∈ query_terms
      · simp [hmem, add_comm]
      · simp [hmem]
  rw [hsum]

/-- C4 witness: the spec's Scenario E — keywords
`["sales", "negotiation"]`, query term `"sales"` — where the component is
`(1/2) × 0.5 = 0.25`. -/
theorem C4_witness :
    (scenarioEItem.keywords ≠ [] ∧ ([str "sales"] : List Str) ≠ []) ∧
    keyword_component [str "sales"] scenarioEItem =
      ((scenarioEItem.keywords.countP
          (fun kw => decide (clean_text kw ∈ [str "sales"])) : ℚ)
        / scenarioEItem.keywords.length) * (1 / 2) ∧
    keyword_component [str "sales"] scenarioEItem = 1 / 4 :=
  ⟨⟨by decide, by decide⟩,
    C4_keyword_exact [str "sales"] scenarioEItem (by decide) (by decide),
    by with_unfolding_all decide⟩

/-- C5: the name bonus is a flat `0.2` added exactly when some query term
is a substring of the normalized item name; consequently a query equal to
the item's own name always scores that item at least `0.2`. -/
theorem C5_name_bonus_flat (test : TestRec) (query_terms : List Str)
    (hk : test.keywords ≠ []) (hq : query_terms ≠ []) :
    calculate_relevance_score query_terms test =
      some (keyword_component query_terms test + partial_component query_terms test +
        (if query_terms.any (fun term => substr term (clean_text test.name)) then 1 / 5
          else 0)) ∧
    (query_terms = pySplit (clean_text test.name) →
      ∀ s : ℚ, calculate_relevance_score query_terms test = some s → 1 / 5 ≤ s) := by
  constructor
  · rw [calculate_eq query_terms test hk hq]
    rfl
  · intro hqt s hs
    obtain ⟨hdecomp, -, -⟩ := calculate_some hs
    subst hdecomp
    have hbonus : name_bonus query_terms test = 1 / 5 := by
      unfold name_bonus
      rw [if_pos]
      rw [List.any_eq_true]
      obtain ⟨t, ht⟩ := List.exists_mem_of_ne_nil query_terms hq
      refine ⟨t, ht, ?_⟩
      rw [substr_iff]
      apply pySplit_infix
      rw [← hqt]
      exact ht
    have h1 := keyword_component_nonneg query_terms test
    have h2 := partial_component_nonneg query_terms test
    linarith [hbonus, le_of_eq hbonus.symm]

/-- C5 witness: the query `"Coding Pro"` tokenizes to its own item's name
tokens and scores the Coding Pro entry at `61/120 ≥ 1/5`. -/
theorem C5_witness :
    (codingPro.keywords ≠ [] ∧ ([str "coding", str "pro"] : List Str) ≠ []) ∧
    calculate_relevance_score [str "coding", str "pro"] codingPro = some (61 / 120) ∧
    (1 / 5 : ℚ) ≤ 61 / 120 :=
  ⟨⟨by decide, by decide⟩, by with_unfolding_all decide,
    (C5_name_bonus_flat codingPro [str "coding", str "pro"] (by decide) (by decide)).2
      (by decide) (61 / 120) (by with_unfolding_all decide)⟩

/-- C6: the recommendation list keeps only positive scores, every
positive-scored catalog entry missing from it was cut by the limit, the
list never exceeds the limit, and the limit defaults to 10. -/
theorem C6_filter_and_truncate (query : Str) (catalog : List TestRec) (limit : Nat)
    (cat : List TestRec) (res : RankResult)
    (h : find_relevant_tests query catalog limit = some (cat, res)) :
    res.recommendations.length ≤ limit ∧
    (∀ r ∈ res.recommendations, ∃ s : ℚ, r.relevance_score = some s ∧ 0 < s) ∧
    (∀ t ∈ catalog, ∀ s : ℚ,
      calculate_relevance_score (pySplit (clean_text query)) t = some s → 0 < s →
      ({ t with relevance_score := some s } : TestRec) ∈ res.recommendations ∨
        res.recommendations.length = limit) ∧
    find_relevant_tests_default query catalog = find_relevant_tests query catalog 10 := by
  obtain ⟨-, hrec⟩ := find_eq h
  refine ⟨?_, ?_, ?_, rfl⟩
  · rw [hrec, List.length_take]
    exact min_le_left _ _
  · intro r hr
    rw [hrec] at hr
    have hr3 : r ∈ positive_scored (pySplit (clean_text query)) catalog :=
      List.mem_mergeSort.mp (List.take_subset _ _ hr)
    obtain ⟨t, -, s, -, hs, rfl⟩ := mem_positive_scored.mp hr3
    exact ⟨s, rfl, hs⟩
  · intro t ht s hcalc hs
    have hmem : ({ t with relevance_score := some s } : TestRec)
        ∈ positive_scored (pySplit (clean_text query)) catalog :=
      mem_positive_scored.mpr ⟨t, ht, s, hcalc, hs, rfl⟩
    have hmem2 : ({ t with relevance_score := some s } : TestRec)
        ∈ (positive_scored (pySplit (clean_text query)) catalog).mergeSort score_ge :=
      List.mem_mergeSort.mpr hmem
    by_cases hin : ({ t with relevance_score := some s } : TestRec) ∈ res.recommendations
    · exact Or.inl hin
    · right
      rw [hrec] at hin
      rw [hrec, List.length_take]
      rcases Nat.le_total
        ((positive_scored (pySplit (clean_text query)) catalog).mergeSort score_ge).length
        limit with hle | hle
      · rw [List.take_of_length_le hle] at hin
        exact absurd hmem2 hin
      · exact Nat.min_eq_left hle

/-- C6 witness: the query `"sales"` on the bundled catalog returns one
recommendation, within the default limit. -/
theorem C6_witness :
    find_relevant_tests (str "sales") SHL_TESTS 10 = some (SHL_TESTS, salesRankResult) ∧
    salesRankResult.recommendations.length ≤ 10 :=
  ⟨find_sales_eval,
    (C6_filter_and_truncate (str "sales") SHL_TESTS 10 SHL_TESTS salesRankResult
      find_sales_eval).1⟩

/-- C7: the recommendation list is sorted by relevance score in
descending order. -/
theorem C7_sorted_descending (query : Str) (catalog : List TestRec) (limit : Nat)
    (cat : List TestRec) (res : RankResult)
    (h : find_relevant_tests query catalog limit = some (cat, res)) :
    res.recommendations.Pairwise (fun a b => sort_key b ≤ sort_key a) := by
  obtain ⟨-, hrec⟩ := find_eq h
  rw [hrec]
  have hs : (((positive_scored (pySplit (clean_text query)) catalog).mergeSort
      score_ge)).Pairwise (fun a b => score_ge a b) :=
    List.sorted_mergeSort score_ge_trans score_ge_total _
  have hp := hs.imp (fun hab => of_decide_eq_true hab)
  exact List.Pairwise.sublist (List.take_sublist _ _) hp

/-- C7 witness: the sortedness applied to the `"sales"` run. -/
theorem C7_witness :
    salesRankResult.recommendations.Pairwise (fun a b => sort_key b ≤ sort_key a) :=
  C7_sorted_descending (str "sales") SHL_TESTS 10 SHL_TESTS salesRankResult find_sales_eval

/-- C8: the normalizer is idempotent. -/
theorem C8_clean_text_idempotent (x : Str) : clean_text (clean_text x) = clean_text x := by
  unfold clean_text
  have hmap : ((x.map Char.toLower).filter isKeptChar).map Char.toLower
      = (x.map Char.toLower).filter isKeptChar := by
    have h1 : ∀ c ∈ (x.map Char.toLower).filter isKeptChar, Char.toLower c = c := by
      intro c hc
      obtain ⟨b, -, rfl⟩ := List.mem_map.mp (List.mem_of_mem_filter hc)
      exact toLower_toLower b
    calc ((x.map Char.toLower).filter isKeptChar).map Char.toLower
        = ((x.map Char.toLower).filter isKeptChar).map id := List.map_congr_left h1
      _ = (x.map Char.toLower).filter isKeptChar := List.map_id _
  rw [hmap]
  exact List.filter_eq_self.mpr (fun a ha => (List.mem_filter.mp ha).2)

/-- C9: `find_relevant_tests` gives the catalog back unchanged — no entry
added, removed or modified, no `relevance_score` attached to a catalog
entry — and every returned record is a fresh copy of a catalog entry with
only the `relevance_score` key added. -/
theorem C9_no_catalog_mutation (query : Str) (catalog : List TestRec) (limit : Nat)
    (cat : List TestRec) (res : RankResult)
    (h : find_relevant_tests query catalog limit = some (cat, res)) :
    cat = catalog ∧
    ∀ r ∈ res.recommendations, ∃ t ∈ catalog, ∃ s : ℚ,
      calculate_relevance_score (pySplit (clean_text query)) t = some s ∧
      r = { t with relevance_score := some s } := by
  obtain ⟨hcat, hrec⟩ := find_eq h
  refine ⟨hcat, ?_⟩
  intro r hr
  rw [hrec] at hr
  have hr3 : r ∈ positive_scored (pySplit (clean_text query)) catalog :=
    List.mem_mergeSort.mp (List.take_subset _ _ hr)
  obtain ⟨t, ht, s, hcalc, -, rfl⟩ := mem_positive_scored.mp hr3
  exact ⟨t, ht, s, hcalc, rfl⟩

/-- C9 witness: the one record returned for `"sales"` is a fresh copy of a
catalog entry with its score attached. -/
theorem C9_witness :
    ∃ t ∈ SHL_TESTS, ∃ s : ℚ,
      calculate_relevance_score (pySplit (clean_text (str "sales"))) t = some s ∧
      salesScored = { t with relevance_score := some s } :=
  (C9_no_catalog_mutation (str "sales") SHL_TESTS 10 SHL_TESTS salesRankResult
      find_sales_eval).2 salesScored (by with_unfolding_all decide)

/-- C10: items of equal relevance score keep their catalog order: the
equal-score block of the output is a prefix of the corresponding block of
the catalog-ordered positive-scored list. -/
theorem C10_stable_ties (query : Str) (catalog : List TestRec) (limit : Nat)
    (cat : List TestRec) (res : RankResult) (v : ℚ)
    (h : find_relevant_tests query catalog limit = some (cat, res)) :
    res.recommendations.filter (fun r => decide (r.relevance_score = some v)) <+:
      (positive_scored (pySplit (clean_text query)) catalog).filter
        (fun r => decide (r.relevance_score = some v)) := by
  obtain ⟨-, hrec⟩ := find_eq h
  have hkey : ∀ r : TestRec, (fun r => decide (r.relevance_score = some v)) r = true →
      sort_key r = v := by
    intro r hr
    have hrv : r.relevance_score = some v := of_decide_eq_true hr
    simp [sort_key, hrv]
  have hpw : (((positive_scored (pySplit (clean_text query)) catalog).filter
      (fun r => decide (r.relevance_score = some v)))).Pairwise
      (fun a b => score_ge a b) := by
    apply List.pairwise_of_forall_mem_list
    intro a ha b hb
    show score_ge a b = true
    rw [score_ge, hkey a (List.mem_filter.mp ha).2, hkey b (List.mem_filter.mp hb).2]
    simp
  have hsub : List.Sublist
      ((positive_scored (pySplit (clean_text query)) catalog).filter
        (fun r => decide (r.relevance_score = some v)))
      ((positive_scored (pySplit (clean_text query)) catalog).mergeSort score_ge) :=
    List.sublist_mergeSort score_ge_trans score_ge_total hpw (List.filter_sublist _)
  have hperm : List.Perm
      (((positive_scored (pySplit (clean_text query)) catalog).mergeSort
        score_ge).filter (fun r => decide (r.relevance_score = some v)))
      ((positive_scored (pySplit (clean_text query)) catalog).filter
        (fun r => decide (r.relevance_score = some v))) :=
    (List.mergeSort_perm _ score_ge).filter _
  have hfix : ((positive_scored (pySplit (clean_text query)) catalog).filter
      (fun r => decide (r.relevance_score = some v))).filter
      (fun r => decide (r.relevance_score = some v)) =
      (positive_scored (pySplit (clean_text query)) catalog).filter
        (fun r => decide (r.relevance_score = some v)) :=
    List.filter_eq_self.mpr (fun a ha => (List.mem_filter.mp ha).2)
  have hsub2 := List.Sublist.filter (fun r => decide (r.relevance_score = some v)) hsub
  rw [hfix] at hsub2
  have heq := hsub2.eq_of_length hperm.length_eq.symm
  have htake := List.IsPrefix.filter (fun r => decide (r.relevance_score = some v))
    (List.take_prefix limit
      ((positive_scored (pySplit (clean_text query)) catalog).mergeSort score_ge))
  rw [hrec, heq]
  exact htake

/-- C10 witness: the stability statement applied to the `"sales"` run at
the score `31/40`. -/
theorem C10_witness :
    salesRankResult.recommendations.filter
        (fun r => decide (r.relevance_score = some (31 / 40 : ℚ))) <+:
      (positive_scored (pySplit (clean_text (str "sales"))) SHL_TESTS).filter
        (fun r => decide (r.relevance_score = some (31 / 40 : ℚ))) :=
  C10_stable_ties (str "sales") SHL_TESTS 10 SHL_TESTS salesRankResult (31 / 40)
    find_sales_eval

end SHL
